import Mathlib

/-!
Verification of `src/plugins/notifications/src/components/NotificationsFilters/NotificationsFilters.tsx`.

The component is a presentational filter panel. We embed:
  * the two static lookup tables `CreatedAfterOptions` and `SortByOptions`
    as association lists in insertion order (JavaScript string-keyed object
    literals enumerate keys in insertion order);
  * each `onChange` handler as a function from the event's `value` (a string)
    to the trace of callback invocations it performs, where a possible
    runtime `TypeError` is modelled by `Option` (`none` = the handler throws
    before invoking any callback); the indexed access `SortByOptions[idx]`
    follows JavaScript property-resolution: own keys first, then the
    members a plain object literal inherits from `Object.prototype`
    (for those, `option.sortBy` is `undefined` and `{ ...undefined }`
    evaluates to the empty object, which is still passed to
    `onSortingChanged`), and only a miss on both levels throws;
  * the render step as a pure function from the data props to a record of the
    derived display values and the menu items materialised in the JSX;
  * for the aliasing claim about `{ ...option.sortBy }`, a small heap model in
    which `SortBy` objects live in addressed cells, the handler allocates a
    fresh cell for the spread copy, and the parent may later write through any
    reference it received.
-/

/-- `SortBy = Required<Pick<GetNotificationsOptions, 'sort' | 'sortOrder'>>`.
The `api` module is outside this slice, so the two fields are kept as plain
strings; the component only ever compares them with the literals
`'created'`, `'topic'`, `'origin'` and `'asc'`. -/
structure SortBy where
  sort : String
  sortOrder : String
deriving DecidableEq, Repr

/-- An entry of `CreatedAfterOptions`: a label and a `getDate` thunk.
`getDate` reads `Date.now()`; we model it as a function from the current
time in milliseconds to the cutoff time in milliseconds. -/
structure CreatedAfterOption where
  label : String
  getDateMs : Int → Int

/-- The `CreatedAfterOptions` table, in insertion order. -/
def CreatedAfterOptions : List (String × CreatedAfterOption) :=
  [ ("last24h", { label := "Last 24h", getDateMs := fun now => now - 24 * 3600 * 1000 }),
    ("lastWeek", { label := "Last week", getDateMs := fun now => now - 7 * 24 * 3600 * 1000 }),
    ("all", { label := "Any time", getDateMs := fun _ => 0 }) ]

/-- An entry of `SortByOptions`: a label and a `sortBy` preset. -/
structure SortByOption where
  label : String
  sortBy : SortBy
deriving DecidableEq, Repr

/-- The `SortByOptions` table, in insertion order. -/
def SortByOptions : List (String × SortByOption) :=
  [ ("newest", { label := "Newest on top", sortBy := { sort := "created", sortOrder := "desc" } }),
    ("oldest", { label := "Oldest on top", sortBy := { sort := "created", sortOrder := "asc" } }),
    ("topic", { label := "Topic", sortBy := { sort := "topic", sortOrder := "asc" } }),
    ("origin", { label := "Origin", sortBy := { sort := "origin", sortOrder := "asc" } }) ]

/-- `getSortByText`: the chain of guarded returns, with the optional chaining
`sortBy?.sort` modelled by `Option.map`. -/
def getSortByText (sortBy : Option SortBy) : String :=
  if sortBy.map SortBy.sort = some "created" ∧ sortBy.map SortBy.sortOrder = some "asc" then
    "oldest"
  else if sortBy.map SortBy.sort = some "topic" then
    "topic"
  else if sortBy.map SortBy.sort = some "origin" then
    "origin"
  else
    "newest"

/-- The object `handleOnSortByChanged` passes to `onSortingChanged`: the
shallow copy `{ ...option.sortBy }` is either an object with both fields
(when `option` is a table entry, so `option.sortBy` is a `SortBy` object)
or the empty object (when `option` is an inherited `Object.prototype`
member, so `option.sortBy` is `undefined` and the spread contributes
nothing). -/
inductive SortingPayload where
  | fields (sortBy : SortBy)
  | emptyObject
deriving DecidableEq, Repr

/-- The property names a plain object literal inherits from
`Object.prototype`; for these, `SortByOptions[idx]` resolves along the
prototype chain to a function (or, for `__proto__`, an object) instead of
`undefined`. -/
def objectProtoKeys : List String :=
  [ "constructor", "hasOwnProperty", "isPrototypeOf", "propertyIsEnumerable",
    "toLocaleString", "toString", "valueOf", "__defineGetter__",
    "__defineSetter__", "__lookupGetter__", "__lookupSetter__", "__proto__" ]

/-- One invocation of one of the component's callback props, with the value
it receives.  `Option Bool` models `boolean | undefined` (`none` =
`undefined`). -/
inductive CallbackCall where
  | createdAfterChanged (value : String)
  | unreadOnlyChanged (checked : Option Bool)
  | savedChanged (checked : Option Bool)
  | sortingChanged (payload : SortingPayload)
deriving DecidableEq, Repr

/-- `handleOnCreatedAfterChanged`: forwards `event.target.value` to
`onCreatedAfterChanged`. -/
def handleOnCreatedAfterChanged (value : String) : List CallbackCall :=
  [.createdAfterChanged value]

/-- `handleOnViewChanged`: the four-way strict-equality dispatch on
`event.target.value`. -/
def handleOnViewChanged (value : String) : List CallbackCall :=
  if value = "unread" then
    [.unreadOnlyChanged (some true), .savedChanged none]
  else if value = "read" then
    [.unreadOnlyChanged (some false), .savedChanged none]
  else if value = "saved" then
    [.unreadOnlyChanged none, .savedChanged (some true)]
  else
    [.unreadOnlyChanged none, .savedChanged none]

/-- `handleOnSortByChanged`: `idx` is the event value with the empty string
(the only falsy string) defaulted to `'newest'`.  The access
`SortByOptions[idx]` resolves an own key to its entry, whose `sortBy`
object is shallow-copied and sent; it resolves an inherited
`Object.prototype` name to a non-`undefined` member whose `sortBy`
property is `undefined`, so `{ ...undefined }` sends the empty object; on
any other index `option` is `undefined` and dereferencing `.sortBy`
throws, modelled by `none`. -/
def handleOnSortByChanged (value : String) : Option (List CallbackCall) :=
  let idx := if value = "" then "newest" else value
  match SortByOptions.lookup idx with
  | some option => some [.sortingChanged (.fields option.sortBy)]
  | none =>
    if idx ∈ objectProtoKeys then some [.sortingChanged .emptyObject]
    else none

/-- JavaScript truthiness of a `boolean | undefined` value. -/
def truthy : Option Bool → Bool
  | some b => b
  | none => false

/-- The `viewValue` derivation: `saved` first, then truthy `unreadOnly`,
then `unreadOnly === false`, else `'all'`. -/
def viewValue (saved unreadOnly : Option Bool) : String :=
  if truthy saved then "saved"
  else if truthy unreadOnly then "unread"
  else if unreadOnly = some false then "read"
  else "all"

/-- The data props of `NotificationsFiltersProps`.  The four callback props
are not data: handlers are modelled as returning their invocation traces. -/
structure NotificationsFiltersProps where
  unreadOnly : Option Bool
  createdAfter : Option String
  sorting : SortBy
  saved : Option Bool
deriving DecidableEq, Repr

/-- Everything the component's returned JSX displays that depends on data:
the three selects' current values and their `(value, label)` menu items,
plus the (empty) trace of callback invocations the render body performs. -/
structure RenderOutput where
  viewSelectValue : String
  viewMenuItems : List (String × String)
  createdAfterSelectValue : Option String
  createdAfterMenuItems : List (String × String)
  sortBySelectValue : String
  sortByMenuItems : List (String × String)
  callsDuringRender : List CallbackCall
deriving DecidableEq, Repr

/-- The render step of `NotificationsFilters`: computes `sortByText` and
`viewValue` and materialises the JSX.  The body invokes no callback prop
(the handlers are only attached as `onChange` listeners), hence the empty
trace. -/
def render (p : NotificationsFiltersProps) : RenderOutput :=
  { viewSelectValue := viewValue p.saved p.unreadOnly
    viewMenuItems :=
      [ ("unread", "New only"), ("saved", "Saved"),
        ("read", "Marked as read"), ("all", "All") ]
    createdAfterSelectValue := p.createdAfter
    createdAfterMenuItems := CreatedAfterOptions.map (fun e => (e.1, e.2.label))
    sortBySelectValue := getSortByText (some p.sorting)
    sortByMenuItems := SortByOptions.map (fun e => (e.1, e.2.label))
    callsDuringRender := [] }

/-- Does this callback invocation target `onUnreadOnlyChanged`? -/
def CallbackCall.targetsUnreadOnly : CallbackCall → Bool
  | .unreadOnlyChanged _ => true
  | _ => false

/-- Does this callback invocation target `onSavedChanged`? -/
def CallbackCall.targetsSaved : CallbackCall → Bool
  | .savedChanged _ => true
  | _ => false

/-- Helper: whenever `handleOnSortByChanged` completes, it performed a
single `onSortingChanged` invocation, carrying either the `sortBy` preset
of the entry the defaulted index selects, or — at an inherited
`Object.prototype` name that is not an own key — the empty object from
spreading `undefined`. -/
theorem handleOnSortByChanged_some (v : String) (calls : List CallbackCall)
    (h : handleOnSortByChanged v = some calls) :
    (∃ option, SortByOptions.lookup (if v = "" then "newest" else v) = some option ∧
      calls = [CallbackCall.sortingChanged (SortingPayload.fields option.sortBy)]) ∨
    (SortByOptions.lookup (if v = "" then "newest" else v) = none ∧
      (if v = "" then "newest" else v) ∈ objectProtoKeys ∧
      calls = [CallbackCall.sortingChanged SortingPayload.emptyObject]) := by
  simp only [handleOnSortByChanged] at h
  split at h
  · rename_i option hl
    cases h
    exact Or.inl ⟨option, hl, rfl⟩
  · rename_i hl
    by_cases hp : (if v = "" then "newest" else v) ∈ objectProtoKeys
    · rw [if_pos hp] at h
      cases h
      exact Or.inr ⟨hl, hp, rfl⟩
    · rw [if_neg hp] at h
      cases h

/-- C1: the claim that the view and sort-by handlers forward their event
values verbatim is false.  At event value `"unread"` the view handler
invokes `onUnreadOnlyChanged` with the boolean `true` (and `onSavedChanged`
with `undefined`), not the event's value; moreover the handler sends the
very same invocations for the two distinct event values `"all"` and
`"whatever"`, so the event value is not forwarded verbatim. -/
theorem C1_counterexample :
    handleOnViewChanged "unread" =
      [CallbackCall.unreadOnlyChanged (some true), CallbackCall.savedChanged none] ∧
    handleOnViewChanged "all" = handleOnViewChanged "whatever" ∧
    "all" ≠ "whatever" := by
  decide

/-- C1 (amended): only the created-after handler forwards the event value
verbatim (`onCreatedAfterChanged` receives exactly the event's value); the
view handler translates the event value through a fixed four-case mapping
into `boolean | undefined` flags for `onUnreadOnlyChanged`/`onSavedChanged`;
the sort-by handler never passes the event value either: whenever it
completes it passes `onSortingChanged` either the `sortBy` preset of the
`SortByOptions` entry selected by the event value (empty string defaulting
to `'newest'`), or the empty object when that index is an inherited
`Object.prototype` name rather than an own key. -/
theorem C1_amended_forwarding :
    (∀ v, handleOnCreatedAfterChanged v = [CallbackCall.createdAfterChanged v]) ∧
    (∀ v, handleOnViewChanged v =
      if v = "unread" then
        [CallbackCall.unreadOnlyChanged (some true), CallbackCall.savedChanged none]
      else if v = "read" then
        [CallbackCall.unreadOnlyChanged (some false), CallbackCall.savedChanged none]
      else if v = "saved" then
        [CallbackCall.unreadOnlyChanged none, CallbackCall.savedChanged (some true)]
      else
        [CallbackCall.unreadOnlyChanged none, CallbackCall.savedChanged none]) ∧
    (∀ v calls, handleOnSortByChanged v = some calls →
      (∃ option, SortByOptions.lookup (if v = "" then "newest" else v) = some option ∧
        calls = [CallbackCall.sortingChanged (SortingPayload.fields option.sortBy)]) ∨
      (SortByOptions.lookup (if v = "" then "newest" else v) = none ∧
        (if v = "" then "newest" else v) ∈ objectProtoKeys ∧
        calls = [CallbackCall.sortingChanged SortingPayload.emptyObject])) :=
  ⟨fun _ => rfl, fun _ => rfl, handleOnSortByChanged_some⟩

theorem C1_amended_forwarding_witness :
    (∃ option,
        SortByOptions.lookup (if "oldest" = "" then "newest" else "oldest") = some option ∧
        [CallbackCall.sortingChanged
            (SortingPayload.fields { sort := "created", sortOrder := "asc" })] =
          [CallbackCall.sortingChanged (SortingPayload.fields option.sortBy)]) ∨
    (SortByOptions.lookup (if "oldest" = "" then "newest" else "oldest") = none ∧
        (if "oldest" = "" then "newest" else "oldest") ∈ objectProtoKeys ∧
        [CallbackCall.sortingChanged
            (SortingPayload.fields { sort := "created", sortOrder := "asc" })] =
          [CallbackCall.sortingChanged SortingPayload.emptyObject]) :=
  C1_amended_forwarding.2.2 "oldest"
    [CallbackCall.sortingChanged (SortingPayload.fields { sort := "created", sortOrder := "asc" })]
    (by decide)

/-- C2: the claim that every handler is total on every string is false.
At the event value `"bogus"` (nonempty, not an own key of `SortByOptions`,
and not an `Object.prototype` name) the access `SortByOptions[idx]` is
`undefined` and the dereference of its `sortBy` field throws, modelled by
`none`. -/
theorem C2_counterexample :
    handleOnSortByChanged "bogus" = none ∧
    "bogus" ≠ "" ∧ SortByOptions.lookup "bogus" = none ∧
    "bogus" ∉ objectProtoKeys := by
  decide

/-- C2 (amended): `handleOnCreatedAfterChanged` and `handleOnViewChanged`
are total (each performs its fixed number of callback invocations on every
event value), but `handleOnSortByChanged` completes without error exactly
when the event value is the empty string (defaulted to `'newest'`), an own
key of `SortByOptions`, or a property name inherited from
`Object.prototype` (where the lookup resolves along the prototype chain
and `{ ...undefined }` yields the empty object); on every other string the
`sortBy` dereference of `undefined` fails. -/
theorem C2_amended_totality (v : String) :
    (handleOnCreatedAfterChanged v).length = 1 ∧
    (handleOnViewChanged v).length = 2 ∧
    ((handleOnSortByChanged v).isSome ↔
      (v = "" ∨ (SortByOptions.lookup v).isSome ∨ v ∈ objectProtoKeys)) := by
  refine ⟨rfl, ?_, ?_⟩
  · unfold handleOnViewChanged
    split <;> try rfl
    split <;> try rfl
    split <;> rfl
  · by_cases hv : v = ""
    · subst hv; decide
    · simp only [handleOnSortByChanged, if_neg hv]
      cases hl : SortByOptions.lookup v with
      | some option => simp [hl, hv]
      | none => by_cases hp : v ∈ objectProtoKeys <;> simp [hl, hv, hp]

/-- C3: the claim that no table-entry data other than labels flows into the
callbacks is false.  At event value `"topic"` the sort-by handler passes the
`sortBy` field of the `"topic"` entry of `SortByOptions` — not its label —
to `onSortingChanged`. -/
theorem C3_counterexample :
    SortByOptions.lookup "topic" =
      some { label := "Topic", sortBy := { sort := "topic", sortOrder := "asc" } } ∧
    handleOnSortByChanged "topic" =
      some [CallbackCall.sortingChanged
        (SortingPayload.fields { sort := "topic", sortOrder := "asc" })] := by
  decide

/-- C3 (amended): `CreatedAfterOptions` is consumed only for display — the
rendered menu items carry exactly its keys and labels and its `getDate`
thunks are never invoked — and the labels of `SortByOptions` likewise only
reach the rendered menu items; but whenever `handleOnSortByChanged`
completes, the object it passes to `onSortingChanged` is either the
`sortBy` field of a `SortByOptions` entry — so non-label table data does
flow into that callback — or the empty object produced by spreading
`undefined` at an inherited `Object.prototype` name, which carries no
table data at all. -/
theorem C3_amended_label_consumption :
    (∀ p, (render p).createdAfterMenuItems =
        CreatedAfterOptions.map (fun e => (e.1, e.2.label)) ∧
      (render p).sortByMenuItems = SortByOptions.map (fun e => (e.1, e.2.label))) ∧
    (∀ v calls, handleOnSortByChanged v = some calls →
      ∃ payload, calls = [CallbackCall.sortingChanged payload] ∧
        (payload = SortingPayload.emptyObject ∨
          ∃ k option, SortByOptions.lookup k = some option ∧
            payload = SortingPayload.fields option.sortBy)) := by
  refine ⟨fun p => ⟨rfl, rfl⟩, fun v calls h => ?_⟩
  rcases handleOnSortByChanged_some v calls h with ⟨option, hl, hc⟩ | ⟨hl, hp, hc⟩
  · exact ⟨SortingPayload.fields option.sortBy, hc,
      Or.inr ⟨if v = "" then "newest" else v, option, hl, rfl⟩⟩
  · exact ⟨SortingPayload.emptyObject, hc, Or.inl rfl⟩

theorem C3_amended_label_consumption_witness :
    ∃ payload,
      [CallbackCall.sortingChanged
          (SortingPayload.fields { sort := "topic", sortOrder := "asc" })] =
        [CallbackCall.sortingChanged payload] ∧
      (payload = SortingPayload.emptyObject ∨
        ∃ k option, SortByOptions.lookup k = some option ∧
          payload = SortingPayload.fields option.sortBy) :=
  C3_amended_label_consumption.2 "topic"
    [CallbackCall.sortingChanged (SortingPayload.fields { sort := "topic", sortOrder := "asc" })]
    (by decide)

/-- C4: the view-change dispatch: `'unread'` ↦ `(true, undefined)`,
`'read'` ↦ `(false, undefined)`, `'saved'` ↦ `(undefined, true)`, any other
value ↦ `(undefined, undefined)`, sent to `onUnreadOnlyChanged` and
`onSavedChanged` respectively, each of which is invoked exactly once. -/
theorem C4_view_dispatch (v : String) :
    ((v = "unread" → handleOnViewChanged v =
        [CallbackCall.unreadOnlyChanged (some true), CallbackCall.savedChanged none]) ∧
     (v = "read" → handleOnViewChanged v =
        [CallbackCall.unreadOnlyChanged (some false), CallbackCall.savedChanged none]) ∧
     (v = "saved" → handleOnViewChanged v =
        [CallbackCall.unreadOnlyChanged none, CallbackCall.savedChanged (some true)]) ∧
     (v ≠ "unread" → v ≠ "read" → v ≠ "saved" → handleOnViewChanged v =
        [CallbackCall.unreadOnlyChanged none, CallbackCall.savedChanged none])) ∧
    (handleOnViewChanged v).countP CallbackCall.targetsUnreadOnly = 1 ∧
    (handleOnViewChanged v).countP CallbackCall.targetsSaved = 1 := by
  by_cases h1 : v = "unread" <;> by_cases h2 : v = "read" <;> by_cases h3 : v = "saved" <;>
    simp_all [handleOnViewChanged] <;> decide

theorem C4_view_dispatch_witness :
    handleOnViewChanged "saved" =
      [CallbackCall.unreadOnlyChanged none, CallbackCall.savedChanged (some true)] :=
  (C4_view_dispatch "saved").1.2.2.1 rfl

/-- C6: the sort selection round-trips through the display mapping: for
every entry of `SortByOptions`, feeding the entry's `sortBy` back into
`getSortByText` recovers the entry's key, so the select shows exactly the
option the user picked. -/
theorem C6_sort_roundtrip : ∀ p ∈ SortByOptions, getSortByText (some p.2.sortBy) = p.1 := by
  decide

theorem C6_sort_roundtrip_witness :
    getSortByText (some { sort := "created", sortOrder := "asc" }) = "oldest" :=
  C6_sort_roundtrip
    ("oldest", { label := "Oldest on top", sortBy := { sort := "created", sortOrder := "asc" } })
    (by decide)

/-- C7: the displayed view value gives precedence to `saved`: it is
`'saved'` when `saved` is `true`, otherwise `'unread'` when `unreadOnly` is
`true`, otherwise `'read'` when `unreadOnly` is exactly `false`, and
otherwise `'all'` — for every combination of the two optional boolean
props. -/
theorem C7_view_value_precedence : ∀ saved unreadOnly : Option Bool,
    viewValue saved unreadOnly =
      if saved = some true then "saved"
      else if unreadOnly = some true then "unread"
      else if unreadOnly = some false then "read"
      else "all" := by
  decide

/-- C10: each lookup table's keys are exactly the listed ones, in insertion
order, and they are pairwise distinct within each table. -/
theorem C10_keys_nodup :
    CreatedAfterOptions.map Prod.fst = ["last24h", "lastWeek", "all"] ∧
    SortByOptions.map Prod.fst = ["newest", "oldest", "topic", "origin"] ∧
    (CreatedAfterOptions.map Prod.fst).Nodup ∧
    (SortByOptions.map Prod.fst).Nodup := by
  refine ⟨rfl, rfl, ?_, ?_⟩ <;> decide

/-- C5: rendering is a deterministic function of the data props — two
renders with equal `unreadOnly`, `createdAfter`, `sorting` and `saved`
produce identical derived display values and identical rendered output —
and the render body itself invokes none of the supplied callbacks. -/
theorem C5_render_deterministic (p q : NotificationsFiltersProps)
    (h1 : p.unreadOnly = q.unreadOnly) (h2 : p.createdAfter = q.createdAfter)
    (h3 : p.sorting = q.sorting) (h4 : p.saved = q.saved) :
    render p = render q ∧ (render p).callsDuringRender = [] := by
  cases p
  cases q
  cases h1
  cases h2
  cases h3
  cases h4
  exact ⟨rfl, rfl⟩

theorem C5_render_deterministic_witness :
    render { unreadOnly := none, createdAfter := some "lastWeek",
             sorting := { sort := "created", sortOrder := "desc" }, saved := none } =
      render { unreadOnly := none, createdAfter := some "lastWeek",
               sorting := { sort := "created", sortOrder := "desc" }, saved := none } ∧
    (render { unreadOnly := none, createdAfter := some "lastWeek",
              sorting := { sort := "created", sortOrder := "desc" },
              saved := none }).callsDuringRender = [] :=
  C5_render_deterministic _ _ rfl rfl rfl rfl

/-- C8: `getSortByText` is total over `SortBy | undefined` and defaults to
`'newest'`: it always returns a key of `SortByOptions`; it returns
`'newest'` on `undefined`, and on every `SortBy` matching none of the
guarded patterns (`sort = 'created'` with `sortOrder = 'asc'`,
`sort = 'topic'`, `sort = 'origin'`). -/
theorem C8_getSortByText_total (s : Option SortBy) :
    getSortByText s ∈ SortByOptions.map Prod.fst ∧
    (s = none → getSortByText s = "newest") ∧
    (∀ sb : SortBy, s = some sb →
      ¬(sb.sort = "created" ∧ sb.sortOrder = "asc") →
      sb.sort ≠ "topic" → sb.sort ≠ "origin" →
      getSortByText s = "newest") := by
  match s with
  | none => exact ⟨by decide, fun _ => rfl, fun sb h => Option.noConfusion h⟩
  | some sb =>
    obtain ⟨srt, ord⟩ := sb
    refine ⟨?_, fun h => Option.noConfusion h, ?_⟩
    · unfold getSortByText
      split
      · decide
      · split
        · decide
        · split <;> decide
    · intro sb hsb hp ht ho
      cases hsb
      simp only [getSortByText, Option.map_some', Option.some_inj]
      rw [if_neg, if_neg, if_neg]
      · exact fun h => ho h
      · exact fun h => ht h
      · exact fun h => hp ⟨h.1, h.2⟩

theorem C8_getSortByText_total_witness :
    getSortByText (some { sort := "created", sortOrder := "desc" }) = "newest" :=
  (C8_getSortByText_total (some { sort := "created", sortOrder := "desc" })).2.2
    { sort := "created", sortOrder := "desc" } rfl (by decide) (by decide) (by decide)

/-- A heap of `SortBy` objects for the aliasing analysis of
`handleOnSortByChanged`: `cells` is the store (an address is an index into
it), and `tableAddrs` maps each `SortByOptions` key to the address of the
`sortBy` object stored in its table entry. -/
structure SortStore where
  cells : List SortBy
  tableAddrs : List (String × Nat)
deriving DecidableEq, Repr

/-- The initial heap: one cell per `SortByOptions` entry, holding that
entry's `sortBy` object; the table maps the i-th key to address i. -/
def initSortStore : SortStore :=
  { cells := SortByOptions.map (fun e => e.2.sortBy)
    tableAddrs := SortByOptions.enum.map (fun e => (e.2.1, e.1)) }

/-- `handleOnSortByChanged` at the heap level: looks up the address of the
option's `sortBy` object, allocates a fresh cell holding the shallow copy
`{ ...option.sortBy }`, and returns the new heap together with the address
handed to `onSortingChanged`; `none` models the `TypeError` on a missing
key. -/
def heapHandleOnSortByChanged (value : String) (s : SortStore) : Option (SortStore × Nat) :=
  let idx := if value = "" then "newest" else value
  match s.tableAddrs.lookup idx with
  | none => none
  | some a =>
    match s.cells[a]? with
    | none => none
    | some v => some ({ cells := s.cells ++ [v], tableAddrs := s.tableAddrs }, s.cells.length)

/-- A parent-side mutation of the object at address `a`. -/
def writeCell (s : SortStore) (a : Nat) (v : SortBy) : SortStore :=
  { cells := s.cells.set a v, tableAddrs := s.tableAddrs }

/-- The `sortBy` object currently stored in the table entry of key `k`. -/
def tableRead (s : SortStore) (k : String) : Option SortBy :=
  match s.tableAddrs.lookup k with
  | none => none
  | some a => s.cells[a]?

/-- One interaction step: a sort-change event with some event value, or the
parent mutating the `i`-th object it has received from `onSortingChanged`. -/
inductive SortAction where
  | sortEvent (value : String)
  | parentWrite (i : Nat) (v : SortBy)
deriving DecidableEq, Repr

/-- The heap together with the addresses the parent has received so far. -/
structure SortSession where
  store : SortStore
  handles : List Nat
deriving DecidableEq, Repr

/-- The session before any interaction. -/
def initSortSession : SortSession := { store := initSortStore, handles := [] }

/-- Execute one action.  A sort event that throws (missing key) and a
parent write through a handle that was never issued leave the session
unchanged. -/
def sessionStep (s : SortSession) (act : SortAction) : SortSession :=
  match act with
  | .sortEvent v =>
    match heapHandleOnSortByChanged v s.store with
    | none => s
    | some (st, a) => { store := st, handles := s.handles ++ [a] }
  | .parentWrite i v =>
    match s.handles[i]? with
    | none => s
    | some a => { store := writeCell s.store a v, handles := s.handles }

/-- Execute a whole interaction sequence from the initial session. -/
def runSortSession (acts : List SortAction) : SortSession :=
  acts.foldl sessionStep initSortSession

/-- Session invariant: the table addresses never change, the store only
grows, the cells the table points into keep their initial contents, and
every address handed to the parent lies beyond the initial cells. -/
def SessionInv (s : SortSession) : Prop :=
  s.store.tableAddrs = initSortStore.tableAddrs ∧
  initSortStore.cells.length ≤ s.store.cells.length ∧
  (∀ i, i < initSortStore.cells.length → s.store.cells[i]? = initSortStore.cells[i]?) ∧
  (∀ a ∈ s.handles, initSortStore.cells.length ≤ a)

/-- Every address the initial table maps a key to points into the initial
cells. -/
theorem initTableAddr_lt (k : String) (a : Nat)
    (h : initSortStore.tableAddrs.lookup k = some a) :
    a < initSortStore.cells.length := by
  have e : initSortStore.cells.length = 4 := rfl
  rw [e]
  have e2 : initSortStore.tableAddrs =
      [("newest", 0), ("oldest", 1), ("topic", 2), ("origin", 3)] := rfl
  rw [e2] at h
  simp only [List.lookup] at h
  repeat' split at h
  all_goals first
    | (cases h; omega)
    | cases h

/-- The initial session satisfies the invariant. -/
theorem initSortSession_inv : SessionInv initSortSession :=
  ⟨rfl, Nat.le_refl _, fun _ _ => rfl, fun a ha => absurd ha (List.not_mem_nil a)⟩

/-- When the heap-level handler completes, it has appended one fresh cell
(the copy) and returned its address, the old store length, leaving the
table addresses untouched. -/
theorem heapHandleOnSortByChanged_spec (v : String) (s : SortStore) (st : SortStore) (a : Nat)
    (h : heapHandleOnSortByChanged v s = some (st, a)) :
    ∃ w, st = { cells := s.cells ++ [w], tableAddrs := s.tableAddrs } ∧ a = s.cells.length := by
  simp only [heapHandleOnSortByChanged] at h
  split at h
  · cases h
  · split at h
    · cases h
    · rename_i w hw
      cases h
      exact ⟨w, rfl, rfl⟩

/-- One step preserves the invariant. -/
theorem sessionStep_inv (s : SortSession) (act : SortAction) (hs : SessionInv s) :
    SessionInv (sessionStep s act) := by
  obtain ⟨h1, h2, h3, h4⟩ := hs
  cases act with
  | sortEvent v =>
    simp only [sessionStep]
    cases hh : heapHandleOnSortByChanged v s.store with
    | none => exact ⟨h1, h2, h3, h4⟩
    | some p =>
      obtain ⟨st, a⟩ := p
      obtain ⟨w, hst, ha⟩ := heapHandleOnSortByChanged_spec v s.store st a hh
      subst hst
      subst ha
      refine ⟨h1, ?_, ?_, ?_⟩
      · show initSortStore.cells.length ≤ (s.store.cells ++ [w]).length
        rw [List.length_append]
        exact Nat.le_trans h2 (Nat.le_add_right _ _)
      · intro i hi
        show (s.store.cells ++ [w])[i]? = initSortStore.cells[i]?
        rw [List.getElem?_append_left (Nat.lt_of_lt_of_le hi h2)]
        exact h3 i hi
      · intro b hb
        have hb' : b ∈ s.handles ++ [s.store.cells.length] := hb
        rcases List.mem_append.mp hb' with hm | hm
        · exact h4 b hm
        · rw [List.mem_singleton] at hm
          subst hm
          exact h2
  | parentWrite i v =>
    simp only [sessionStep]
    cases hi : s.handles[i]? with
    | none => exact ⟨h1, h2, h3, h4⟩
    | some a =>
      have ha : initSortStore.cells.length ≤ a := h4 a (List.getElem?_mem hi)
      refine ⟨h1, ?_, ?_, fun b hb => h4 b hb⟩
      · show initSortStore.cells.length ≤ (s.store.cells.set a v).length
        rw [List.length_set]
        exact h2
      · intro j hj
        show (s.store.cells.set a v)[j]? = initSortStore.cells[j]?
        rw [List.getElem?_set_ne (by omega)]
        exact h3 j hj

/-- The invariant holds after every interaction sequence. -/
theorem runSortSession_inv (acts : List SortAction) : SessionInv (runSortSession acts) := by
  suffices h : ∀ s : SortSession, SessionInv s → SessionInv (acts.foldl sessionStep s) from
    h initSortSession initSortSession_inv
  induction acts with
  | nil => exact fun _ hs => hs
  | cons a t ih => exact fun s hs => ih (sessionStep s a) (sessionStep_inv s a hs)

/-- Under the invariant, every table entry reads as it did initially. -/
theorem tableRead_of_inv (s : SortSession) (hs : SessionInv s) (k : String) :
    tableRead s.store k = tableRead initSortStore k := by
  obtain ⟨h1, h2, h3, _⟩ := hs
  unfold tableRead
  rw [h1]
  cases hl : initSortStore.tableAddrs.lookup k with
  | none => rfl
  | some a => exact h3 a (initTableAddr_lt k a hl)

/-- C9: the lookup tables are immutable under every operation: after any
sequence of sort-change events and parent-side mutations of the values
received from `onSortingChanged`, every `SortByOptions` table entry still
holds its original `sortBy` object, because `handleOnSortByChanged` hands
the parent a fresh copy whose address lies outside the table's cells. -/
theorem C9_tables_immutable (acts : List SortAction) (k : String) :
    tableRead (runSortSession acts).store k = tableRead initSortStore k ∧
    ∀ a ∈ (runSortSession acts).handles, initSortStore.cells.length ≤ a := by
  have h := runSortSession_inv acts
  exact ⟨tableRead_of_inv _ h k, h.2.2.2⟩

theorem C9_tables_immutable_witness :
    tableRead (runSortSession [SortAction.sortEvent "oldest",
        SortAction.parentWrite 0 { sort := "origin", sortOrder := "desc" }]).store "oldest" =
      tableRead initSortStore "oldest" ∧
    initSortStore.cells.length ≤ 4 :=
  ⟨(C9_tables_immutable [SortAction.sortEvent "oldest",
      SortAction.parentWrite 0 { sort := "origin", sortOrder := "desc" }] "oldest").1,
   (C9_tables_immutable [SortAction.sortEvent "oldest",
      SortAction.parentWrite 0 { sort := "origin", sortOrder := "desc" }] "oldest").2 4
     (by decide)⟩
